import Mathlib

/-!
Verification of the climate-data statistics core.

This file gives a shallow embedding, over exact rationals, of the analysis
functions of the repository (the module `statistics.py`, the aggregation and
seasonality code inline in `app.py`, and the quality filter of `filters.py`),
and proves the specification claims about them.

Modelling conventions:
* Python floats are modelled as exact rationals (ℚ).  `round(x, d)` is
  modelled as `round (x * 10 ^ d) / 10 ^ d` with `round` the Mathlib
  round-half-up; Python's float rounding differs from any exact rule only at
  exact decimal ties, which the claims do not exercise.
* `numpy` reductions (`mean`, `var`, `std`, `polyfit` of degree 1, `polyval`)
  are modelled by their exact mathematical definitions: arithmetic mean,
  population variance, square root of the population variance, and the
  ordinary-least-squares line (the degree-1 semantics of `np.polyfit`).
* Values produced by a float `sqrt` (the anomaly `deviation` field) are
  embedded by an exact integer computation of `round (10 ^ d * Real.sqrt q) / 10 ^ d`
  (see `sqrtRoundTo`); the lemma `sqrtRoundTo_eq` proves that this equals the
  rounded true square root, and comparisons with the float `std_dev` are
  embedded by equivalent comparisons of squares (proved equivalent over ℝ in
  the claim theorems).
* Python's stable list sort is modelled by a stable insertion sort.
* `datetime.date` subtraction is modelled by a Gregorian day number
  (`Date.dayNumber`, the standard civil-calendar day count, shifted by a
  constant; only differences of day numbers are ever used).
-/

/-! ## Numeric helpers -/

/-- Arithmetic mean of a list of rationals (`np.mean`); `0` on the empty list
(callers in the source never take the mean of an empty list). -/
def mean (l : List ℚ) : ℚ := l.sum / l.length

/-- Population variance of a list of rationals (`np.var`, denominator `N`). -/
def popVar (l : List ℚ) : ℚ := ((l.map (fun v => (v - mean l) ^ 2)).sum) / l.length

/-- Python `min` over a nonempty list (`0` on `[]`, which callers guard). -/
def listMin : List ℚ → ℚ
  | [] => 0
  | x :: xs => xs.foldl min x

/-- Python `max` over a nonempty list (`0` on `[]`, which callers guard). -/
def listMax : List ℚ → ℚ
  | [] => 0
  | x :: xs => xs.foldl max x

/-- Python `round(x, d)` on exact values: round half up to `d` decimals. -/
def roundTo (d : ℕ) (x : ℚ) : ℚ := ((round (x * 10 ^ d) : ℤ) : ℚ) / 10 ^ d

/-- Integer `⌊10 ^ d * √q + 1/2⌋` for a nonnegative rational `q`, computed
exactly with `Nat.sqrt`.  This embeds `round(sqrt(q), d)` of the float
computation; `sqrtRoundTo_eq` below proves it correct against `Real.sqrt`. -/
def sqrtHalfUpNum (d : ℕ) (q : ℚ) : ℕ :=
  (Nat.sqrt (4 * ((10 ^ d) ^ 2 * q.num.toNat * q.den)) / q.den + 1) / 2

/-- Rounded square root: `round (10 ^ d * Real.sqrt q) / 10 ^ d` as an exact
rational (for `0 ≤ q`). -/
def sqrtRoundTo (d : ℕ) (q : ℚ) : ℚ := (sqrtHalfUpNum d q : ℚ) / 10 ^ d

/-- ASCII lower-casing of one character code, as Python `str.lower` acts on
the ASCII range (the only range exercised by quality labels). -/
def asciiLowerChar (c : Char) : Char :=
  if 65 ≤ c.toNat ∧ c.toNat ≤ 90 then Char.ofNat (c.toNat + 32) else c

/-- ASCII lower-casing of a string; agrees with Python `str.lower` on ASCII
strings, which is the domain of the quality-threshold comparison. -/
def asciiLower (s : String) : String := String.mk (s.data.map asciiLowerChar)

/-! ## Dates

`datetime.strptime(str(d), "%Y-%m-%d")` turns each stored date into a
calendar date; the code then uses only (a) differences in days, (b) the
year, and (c) the month.  We model a date by its components and give the
civil-calendar day number (Howard Hinnant's `days_from_civil`, shifted by
the constant 719468, which cancels in every difference). -/

structure Date where
  year : ℕ
  month : ℕ
  day : ℕ
deriving DecidableEq

/-- Day number of a Gregorian date (days since 0000-03-01).  Differences of
`dayNumber` equal differences of Python `datetime` dates in days. -/
def Date.dayNumber (dt : Date) : ℕ :=
  let y := if dt.month ≤ 2 then dt.year - 1 else dt.year
  let era := y / 400
  let yoe := y % 400
  let mp := if 2 < dt.month then dt.month - 3 else dt.month + 9
  let doy := (153 * mp + 2) / 5 + (dt.day - 1)
  let doe := yoe * 365 + yoe / 4 - yoe / 100 + doy
  era * 146097 + doe

instance : Inhabited Date := ⟨⟨1970, 1, 1⟩⟩

/-! ## The metric series fed to the analysis functions

`app.py` groups the fetched rows per metric into parallel lists
`dates`, `values`, `qualities` plus the metric `unit`. -/

structure SeriesData where
  dates : List Date
  values : List ℚ
  qualities : List String
  unit : String

/-! ## Ordinary least squares (`np.polyfit(x, y, 1)` semantics) -/

/-- The denominator `N·Σx² - (Σx)²` of the degree-1 normal equations. -/
def olsDenom (xs : List ℚ) : ℚ :=
  (xs.length : ℚ) * (xs.map (fun x => x ^ 2)).sum - xs.sum ^ 2

/-- Slope of the least-squares line through the points `zip xs ys`
(the degree-1 semantics of `np.polyfit`); meaningful when `olsDenom xs ≠ 0`,
i.e. when the `xs` are not all equal. -/
def olsSlope (xs ys : List ℚ) : ℚ :=
  ((xs.length : ℚ) * ((xs.zip ys).map (fun p => p.1 * p.2)).sum - xs.sum * ys.sum)
    / olsDenom xs

/-- Intercept of the least-squares line through the points `zip xs ys`. -/
def olsIntercept (xs ys : List ℚ) : ℚ :=
  (ys.sum - olsSlope xs ys * xs.sum) / (xs.length : ℚ)

/-! ## `calculate_trend` (`statistics.py` lines 14-72; the copy inline in
`app.py` lines 422-475 is textually identical) -/

structure TrendResult where
  direction : String
  rate : ℚ
  unit : String
  confidence : ℚ
deriving DecidableEq

/-- Day offsets `days_since_start` of the series dates from the first date. -/
def trendDays (data : SeriesData) : List ℚ :=
  data.dates.map (fun d => ((d.dayNumber : ℤ) - ((data.dates.headI).dayNumber : ℤ) : ℤ))

/-- Embedding of `calculate_trend`. -/
def calculate_trend (data : SeriesData) : TrendResult :=
  if data.values.length < 3 then
    { direction := "insufficient_data", rate := 0, unit := data.unit ++ "/month", confidence := 0 }
  else
    let xs := trendDays data
    let ys := data.values
    let slope := olsSlope xs ys
    let intercept := olsIntercept xs ys
    let ssRes := ((ys.zip (xs.map (fun x => slope * x + intercept))).map
      (fun p => (p.1 - p.2) ^ 2)).sum
    let ssTot := (ys.map (fun y => (y - mean ys) ^ 2)).sum
    let r2 := if 0 < ssTot then 1 - ssRes / ssTot else 0
    let r2c := max 0 (min 1 r2)
    let direction :=
      if |slope| < 1 / 100 then "stable"
      else if 0 < slope then "increasing"
      else "decreasing"
    { direction := direction
      rate := roundTo 2 (slope * 30)
      unit := data.unit ++ "/month"
      confidence := roundTo 2 r2c }

/-! ## `detect_anomalies` (`statistics.py` lines 75-119; identical copy in
`app.py` lines 478-517)

The source computes `std_dev = np.std(values)` (a float square root), tests
`std_dev == 0`, computes `deviation = abs(value - mean) / std_dev`, tests
`deviation > 2.0`, and reports `round(deviation, 2)`.  Over exact numbers:
`std_dev == 0` iff the population variance is `0`; `deviation > 2` iff
`(value - mean)² > 4 · variance`; and the reported rounded deviation is
`sqrtRoundTo 2` of `deviation² = (value - mean)² / variance`.  The claim
theorem proves these equivalences against `Real.sqrt`. -/

structure Anomaly where
  date : Date
  value : ℚ
  deviation : ℚ
  quality : String
deriving DecidableEq

/-- Descending order on the (already rounded) reported deviation, the sort
key of `anomalies.sort(key=lambda x: x['deviation'], reverse=True)`.  Stable
insertion sort with this order has exactly the semantics of Python's stable
descending sort. -/
def anomalyOrder (a b : Anomaly) : Prop := b.deviation ≤ a.deviation

instance : DecidableRel anomalyOrder := fun a b =>
  inferInstanceAs (Decidable (b.deviation ≤ a.deviation))

instance : IsTotal Anomaly anomalyOrder := ⟨fun a b => le_total b.deviation a.deviation⟩

instance : IsTrans Anomaly anomalyOrder := ⟨fun _ _ _ h1 h2 => le_trans h2 h1⟩

/-- Embedding of `detect_anomalies` (`mean` and `popVar` are written inline
where the source binds them to the locals `mean` and `std_dev ** 2`). -/
def detect_anomalies (data : SeriesData) : List Anomaly :=
  if data.values.length < 3 then []
  else if popVar data.values = 0 then []
  else
    List.insertionSort anomalyOrder
      ((data.dates.zip (data.values.zip data.qualities)).filterMap
        (fun t =>
          if 4 * popVar data.values < (t.2.1 - mean data.values) ^ 2 then
            some { date := t.1
                   value := roundTo 1 t.2.1
                   deviation := sqrtRoundTo 2
                     ((t.2.1 - mean data.values) ^ 2 / popVar data.values)
                   quality := t.2.2 }
          else none))

/-! ## `detect_seasonality` (`statistics.py` lines 122-288) -/

/-- Month-to-season mapping of the source (month `in [12,1,2]` → winter,
`[3,4,5]` → spring, `[6,7,8]` → summer, otherwise fall). -/
def seasonOf (m : ℕ) : String :=
  if m = 12 ∨ m = 1 ∨ m = 2 then "winter"
  else if m = 3 ∨ m = 4 ∨ m = 5 then "spring"
  else if m = 6 ∨ m = 7 ∨ m = 8 then "summer"
  else "fall"

/-- Iteration order `['winter', 'spring', 'summer', 'fall']` of the source. -/
def seasonOrder : List String := ["winter", "spring", "summer", "fall"]

/-- The date/value points of a series (`zip(date_objects, values)`). -/
def seasonPts (data : SeriesData) : List (Date × ℚ) := data.dates.zip data.values

/-- All values of a series falling in season `s`, pooled across years
(`all_values` of the source; the source pools year by year, which permutes
the same multiset and so leaves every mean and variance unchanged). -/
def seasonVals (s : String) (pts : List (Date × ℚ)) : List ℚ :=
  (pts.filter (fun p => seasonOf p.1.month == s)).map (fun p => p.2)

/-- Values of season `s` in year `y` (`seasonal_yearly_data[season][year]`). -/
def seasonYearVals (s : String) (y : ℕ) (pts : List (Date × ℚ)) : List ℚ :=
  (pts.filter (fun p => seasonOf p.1.month == s && p.1.year == y)).map (fun p => p.2)

/-- The distinct years having data for season `s`, ascending
(`sorted(seasonal_yearly_data[season].keys())`). -/
def seasonYears (s : String) (pts : List (Date × ℚ)) : List ℕ :=
  List.insertionSort (fun a b => a ≤ b)
    (((pts.filter (fun p => seasonOf p.1.month == s)).map (fun p => p.1.year)).dedup)

/-- Per-season trend over yearly averages (lines 250-276 of the source):
with at least 3 years of data for the season, the least-squares slope of
yearly mean against year, classified with threshold `0.1`; otherwise
`'stable'`. -/
def seasonTrend (s : String) (pts : List (Date × ℚ)) : String :=
  let ys := seasonYears s pts
  let avgs := ys.map (fun y => mean (seasonYearVals s y pts))
  if 3 ≤ ys.length then
    let slope := olsSlope (ys.map (fun y => (y : ℚ))) avgs
    if |slope| < 1 / 10 then "stable"
    else if 0 < slope then "increasing"
    else "decreasing"
  else "stable"

/-- The seasons having at least 2 pooled values, in the iteration order of
the source (the keys of `seasonal_averages`). -/
def qualifyingSeasons (data : SeriesData) : List String :=
  seasonOrder.filter (fun s => decide (2 ≤ (seasonVals s (seasonPts data)).length))

/-- `between_variance`: population variance of the qualifying seasons' means. -/
def betweenVariance (data : SeriesData) : ℚ :=
  popVar ((qualifyingSeasons data).map (fun s => mean (seasonVals s (seasonPts data))))

/-- `avg_within_variance`: mean over qualifying seasons of each season's
population variance (`0.0` when no season qualifies, as in the source). -/
def avgWithinVariance (data : SeriesData) : ℚ :=
  let ws := (qualifyingSeasons data).map (fun s => popVar (seasonVals s (seasonPts data)))
  if ws = [] then 0 else mean ws

structure SeasonEntry where
  avg : ℚ
  trend : String
deriving DecidableEq

structure SeasonalityResult where
  detected : Bool
  period : String
  confidence : ℚ
  pattern : Option (List (String × SeasonEntry))
deriving DecidableEq

/-- The sentinel `{'detected': False, 'period': 'none', 'confidence': 0.0}`
(no `pattern` key). -/
def noSeasonality : SeasonalityResult :=
  { detected := false, period := "none", confidence := 0, pattern := none }

/-- The `pattern` dict built on detection (lines 243-281 of the source). -/
def seasonalityPattern (data : SeriesData) : List (String × SeasonEntry) :=
  (qualifyingSeasons data).map (fun s =>
    (s, { avg := roundTo 1 (mean (seasonVals s (seasonPts data)))
          trend := seasonTrend s (seasonPts data) }))

/-- Embedding of `detect_seasonality` of `statistics.py`. -/
def detect_seasonality (data : SeriesData) : SeasonalityResult :=
  if data.dates = [] ∨ data.values = [] then noSeasonality
  else if (data.dates.map Date.year).dedup.length < 2 then noSeasonality
  else if (qualifyingSeasons data).length < 3 then noSeasonality
  else
    let b := betweenVariance data
    let w := avgWithinVariance data
    if w = 0 then
      if 0 < b then
        { detected := true, period := "yearly", confidence := roundTo 2 1
          pattern := some (seasonalityPattern data) }
      else noSeasonality
    else if w * 2 < b then
      { detected := true, period := "yearly"
        confidence := roundTo 2 (min 1 (b / (w * 10)))
        pattern := some (seasonalityPattern data) }
    else noSeasonality

/-! ## The `detect_seasonality` defined inline in `app.py` (lines 520-562)

This is the version the `/api/v1/trends` endpoint actually calls (`app.py`
defines its own `calculate_trend`, `detect_anomalies`, `detect_seasonality`
and imports nothing from `statistics.py`).  After its guards it returns the
sentinel unconditionally. -/

/-- Python `max` over a nonempty list of day numbers. -/
def listMaxNat : List ℕ → ℕ
  | [] => 0
  | x :: xs => xs.foldl max x

/-- Python `min` over a nonempty list of day numbers. -/
def listMinNat : List ℕ → ℕ
  | [] => 0
  | x :: xs => xs.foldl min x

/-- Embedding of the `detect_seasonality` of `app.py`. -/
def app_detect_seasonality (data : SeriesData) : SeasonalityResult :=
  if data.dates = [] then noSeasonality
  else
    let ds := data.dates.map Date.dayNumber
    let span : ℤ := (listMaxNat ds : ℤ) - (listMinNat ds : ℤ)
    if span < 180 then noSeasonality
    else noSeasonality

/-! ## Aggregation of the `/api/v1/summary` endpoint (`app.py` lines 264-317)
and the quality-weight table (`app.py` lines 35-40) -/

/-- The fixed `QUALITY_WEIGHTS` dict; `none` models a `KeyError` lookup. -/
def QUALITY_WEIGHTS : String → Option ℚ := fun q =>
  if q = "excellent" then some 1
  else if q = "good" then some (8 / 10)
  else if q = "questionable" then some (5 / 10)
  else if q = "poor" then some (3 / 10)
  else none

/-- Look up the weight of every quality of the series, failing (as the
generator expressions of lines 302-303 fail with `KeyError`) if any label is
outside the table. -/
def lookupWeights : List String → Option (List ℚ)
  | [] => some []
  | q :: qs =>
    match QUALITY_WEIGHTS q, lookupWeights qs with
    | some w, some ws => some (w :: ws)
    | _, _ => none

structure QualityDistribution where
  excellent : ℚ
  good : ℚ
  questionable : ℚ
  poor : ℚ
deriving DecidableEq

structure SummaryEntry where
  min : ℚ
  max : ℚ
  avg : ℚ
  unit : String
  weighted_avg : ℚ
  quality_distribution : QualityDistribution
deriving DecidableEq

/-- Per-metric aggregation of `get_summary` (`app.py` lines 284-317) over the
parallel value/quality lists of one metric: `none` when the series is empty
(the metric is skipped) or when a weight lookup raises. -/
def summarize (values : List ℚ) (qualities : List String) (unit : String) :
    Option SummaryEntry :=
  if values = [] then none
  else
    match lookupWeights qualities with
    | none => none
    | some ws =>
      let total : ℚ := (qualities.length : ℚ)
      some
        { min := listMin values
          max := listMax values
          avg := values.sum / (values.length : ℚ)
          unit := unit
          weighted_avg := ((values.zip ws).map (fun p => p.1 * p.2)).sum / ws.sum
          quality_distribution :=
            { excellent := ((qualities.count ("excellent")) : ℚ) / total
              good := ((qualities.count ("good")) : ℚ) / total
              questionable := ((qualities.count ("questionable")) : ℚ) / total
              poor := ((qualities.count ("poor")) : ℚ) / total } }

/-! ## The quality-threshold filter (`filters.py` lines 48-65; the same
`quality_map` expansion appears inline in each endpoint of `app.py`)

The filter builds `AND cd.quality IN (...)` from the expansion of the
threshold; its row semantics is membership of the row's quality in the
expanded list.  An unrecognized threshold (a failed `quality_map.get`)
adds no SQL clause, keeping every row. -/

/-- The `quality_map` dict of the source; `none` models a failed `.get`. -/
def quality_map : String → Option (List String) := fun s =>
  if s = "poor" then some ["poor", "questionable", "good", "excellent"]
  else if s = "questionable" then some ["questionable", "good", "excellent"]
  else if s = "good" then some ["good", "excellent"]
  else if s = "excellent" then some ["excellent"]
  else none

/-- Row semantics of the quality-threshold filter: with no threshold (or a
Python-falsy empty string, which `quality_map` also fails to recognize) or an
unrecognized threshold, every row is kept; otherwise a row is kept iff its
quality is in the expanded list. -/
def rowPassesQualityFilter (threshold : Option String) (rowQuality : String) : Bool :=
  match threshold with
  | none => true
  | some t =>
    match quality_map (asciiLower t) with
    | none => true
    | some allowed => decide (rowQuality ∈ allowed)

/-- The quality hierarchy `poor < questionable < good < excellent` as ranks;
`none` for a string outside the four labels. -/
def qualityRank : String → Option ℕ := fun s =>
  if s = "poor" then some 0
  else if s = "questionable" then some 1
  else if s = "good" then some 2
  else if s = "excellent" then some 3
  else none

/-- The four known quality labels. -/
def knownQualities : List String := ["poor", "questionable", "good", "excellent"]

/-! ## General lemmas -/

lemma roundTo_two_one : roundTo 2 1 = 1 := by
  norm_num [roundTo, round_eq]

lemma popVar_nonneg (l : List ℚ) : 0 ≤ popVar l := by
  unfold popVar
  refine div_nonneg (List.sum_nonneg ?_) (by positivity)
  intro x hx
  rcases List.mem_map.1 hx with ⟨v, _, rfl⟩
  positivity

/-! ## Claim C5 -/

/-- Example series used by the claim-C5 witness. -/
def exShort : SeriesData :=
  { dates := [⟨2025, 1, 1⟩, ⟨2025, 1, 2⟩], values := [10, 11]
    qualities := ["good", "good"], unit := "celsius" }

/-- Claim C5: a metric series with fewer than 3 points yields the sentinel
with direction `insufficient_data`, rate `0.0`, confidence `0.0`, and the
unit suffixed with `/month`, with no error path. -/
theorem trend_insufficient_data (data : SeriesData) (h : data.values.length < 3) :
    calculate_trend data =
      { direction := "insufficient_data", rate := 0
        unit := data.unit ++ "/month", confidence := 0 } := by
  simp [calculate_trend, h]

/-- Witness for claim C5 at a concrete 2-point series. -/
theorem trend_insufficient_data_witness :
    exShort.values.length < 3 ∧
      calculate_trend exShort =
        { direction := "insufficient_data", rate := 0
          unit := exShort.unit ++ "/month", confidence := 0 } :=
  ⟨by decide, trend_insufficient_data exShort (by decide)⟩

/-! ## Claim C2 -/

/-- Claim C2: the `detect_seasonality` defined inline in `app.py` (the one
the trends endpoint calls) returns the sentinel
`{detected: false, period: 'none', confidence: 0.0}` on every input. -/
theorem app_seasonality_always_none (data : SeriesData) :
    app_detect_seasonality data =
      { detected := false, period := "none", confidence := 0, pattern := none } := by
  simp [app_detect_seasonality, noSeasonality]

/-! ## Claim C6 -/

/-- Claim C6: every gate of `detect_seasonality` (empty series, fewer than 2
distinct years, fewer than 3 seasons with at least 2 pooled values) returns
the sentinel, which carries no `pattern`. -/
theorem seasonality_gates_sentinel (data : SeriesData)
    (h : data.dates = [] ∨ data.values = [] ∨
      (data.dates.map Date.year).dedup.length < 2 ∨ (qualifyingSeasons data).length < 3) :
    detect_seasonality data = noSeasonality := by
  unfold detect_seasonality
  rcases h with h | h | h | h
  · simp [h]
  · simp [h]
  · by_cases h0 : data.dates = [] ∨ data.values = []
    · simp [h0]
    · simp [h0, h]
  · by_cases h0 : data.dates = [] ∨ data.values = []
    · simp [h0]
    · by_cases h1 : (data.dates.map Date.year).dedup.length < 2
      · simp [h0, h1]
      · simp [h0, h1, h]

/-- Example empty series used by the claim-C6 witness. -/
def exEmpty : SeriesData := { dates := [], values := [], qualities := [], unit := "" }

/-- Witness for claim C6 at the empty series. -/
theorem seasonality_gates_sentinel_witness :
    (exEmpty.dates = [] ∨ exEmpty.values = [] ∨
      (exEmpty.dates.map Date.year).dedup.length < 2 ∨
        (qualifyingSeasons exEmpty).length < 3) ∧
      detect_seasonality exEmpty = noSeasonality :=
  ⟨Or.inl rfl, seasonality_gates_sentinel exEmpty (Or.inl rfl)⟩

/-! ## Claim C9 -/

lemma qualityRank_eq_some (s : String) (r : ℕ) (h : qualityRank s = some r) :
    (s = "poor" ∧ r = 0) ∨ (s = "questionable" ∧ r = 1) ∨ (s = "good" ∧ r = 2) ∨
      (s = "excellent" ∧ r = 3) := by
  unfold qualityRank at h
  split_ifs at h <;> simp_all

lemma quality_map_eq_none (s : String) (h : qualityRank s = none) : quality_map s = none := by
  unfold qualityRank at h
  unfold quality_map
  split_ifs at h ⊢
  all_goals simp_all

/-- Claim C9: the quality filter expands a recognized (case-insensitively
matched) threshold into the inclusive-upward set of labels of the ordering
`poor < questionable < good < excellent`; in particular threshold `good`
keeps exactly `good`/`excellent` rows and threshold `poor` keeps every row
of known quality; an unrecognized threshold disables the filter, keeping all
rows. -/
theorem quality_threshold_filter (t q : String) :
    (∀ r rq, qualityRank (asciiLower t) = some r → qualityRank q = some rq →
      (rowPassesQualityFilter (some t) q = true ↔ r ≤ rq))
    ∧ (asciiLower t = "good" →
        (rowPassesQualityFilter (some t) q = true ↔ q = "good" ∨ q = "excellent"))
    ∧ (asciiLower t = "poor" → q ∈ knownQualities → rowPassesQualityFilter (some t) q = true)
    ∧ (qualityRank (asciiLower t) = none → rowPassesQualityFilter (some t) q = true) := by
  refine ⟨?_, ?_, ?_, ?_⟩
  · intro r rq hr hrq
    rcases qualityRank_eq_some _ _ hr with ⟨hs, hr0⟩ | ⟨hs, hr0⟩ | ⟨hs, hr0⟩ | ⟨hs, hr0⟩ <;>
      rcases qualityRank_eq_some _ _ hrq with ⟨hq, hq0⟩ | ⟨hq, hq0⟩ | ⟨hq, hq0⟩ | ⟨hq, hq0⟩ <;>
        subst hr0 <;> subst hq0 <;> subst hq <;>
          simp [rowPassesQualityFilter, quality_map, hs]
  · intro hs
    simp [rowPassesQualityFilter, quality_map, hs]
  · intro hs hq
    simp only [knownQualities, List.mem_cons, List.not_mem_nil, or_false] at hq
    rcases hq with rfl | rfl | rfl | rfl <;>
      simp [rowPassesQualityFilter, quality_map, hs]
  · intro hs
    simp [rowPassesQualityFilter, quality_map_eq_none _ hs]

/-- Witness for claim C9: threshold `Good` (mixed case) keeps an
`excellent` row. -/
theorem quality_threshold_filter_witness :
    qualityRank (asciiLower ("Good")) = some 2 ∧ qualityRank ("excellent") = some 3 ∧
      rowPassesQualityFilter (some ("Good")) ("excellent") = true := by
  have hA : qualityRank (asciiLower ("Good")) = some 2 := by decide
  have hB : qualityRank ("excellent") = some 3 := by decide
  exact ⟨hA, hB,
    ((quality_threshold_filter ("Good") ("excellent")).1 2 3 hA hB).mpr (by norm_num)⟩

/-! ## Weight-table lemmas for claims C7, C8, C10 -/

lemma QUALITY_WEIGHTS_label (q : String) (w : ℚ) (h : QUALITY_WEIGHTS q = some w) :
    q = "excellent" ∨ q = "good" ∨ q = "questionable" ∨ q = "poor" := by
  unfold QUALITY_WEIGHTS at h
  split_ifs at h <;> simp_all

lemma QUALITY_WEIGHTS_pos (q : String) (w : ℚ) (h : QUALITY_WEIGHTS q = some w) : 0 < w := by
  unfold QUALITY_WEIGHTS at h
  split_ifs at h <;> simp_all <;> norm_num [← h]

lemma QUALITY_WEIGHTS_of_known (q : String) (h : q ∈ knownQualities) :
    ∃ w, QUALITY_WEIGHTS q = some w := by
  simp only [knownQualities, List.mem_cons, List.not_mem_nil, or_false] at h
  rcases h with rfl | rfl | rfl | rfl <;> simp [QUALITY_WEIGHTS]

lemma QUALITY_WEIGHTS_of_unknown (q : String) (h : q ∉ knownQualities) :
    QUALITY_WEIGHTS q = none := by
  unfold QUALITY_WEIGHTS
  split_ifs with h1 h2 h3 h4 <;> simp_all [knownQualities]

lemma lookupWeights_length (qs : List String) (ws : List ℚ)
    (h : lookupWeights qs = some ws) : ws.length = qs.length := by
  induction qs generalizing ws with
  | nil =>
    simp only [lookupWeights, Option.some.injEq] at h
    simp [← h]
  | cons q qs ih =>
    unfold lookupWeights at h
    cases hq : QUALITY_WEIGHTS q <;> rw [hq] at h
    · exact absurd h (by simp)
    · cases hr : lookupWeights qs <;> rw [hr] at h
      · exact absurd h (by simp)
      · simp only [Option.some.injEq] at h
        simp [← h, ih _ hr]

lemma lookupWeights_mem_pos (qs : List String) (ws : List ℚ)
    (h : lookupWeights qs = some ws) : ∀ w ∈ ws, 0 < w := by
  induction qs generalizing ws with
  | nil =>
    simp only [lookupWeights, Option.some.injEq] at h
    simp [← h]
  | cons q qs ih =>
    unfold lookupWeights at h
    cases hq : QUALITY_WEIGHTS q <;> rw [hq] at h
    · exact absurd h (by simp)
    · cases hr : lookupWeights qs <;> rw [hr] at h
      · exact absurd h (by simp)
      · simp only [Option.some.injEq] at h
        intro w hw
        rw [← h] at hw
        rcases List.mem_cons.1 hw with rfl | hw
        · exact QUALITY_WEIGHTS_pos _ _ hq
        · exact ih _ hr w hw

lemma lookupWeights_sum_pos (qs : List String) (ws : List ℚ)
    (h : lookupWeights qs = some ws) (hne : qs ≠ []) : 0 < ws.sum := by
  have hlen := lookupWeights_length _ _ h
  have hwne : ws ≠ [] := by
    intro h0
    apply hne
    rw [h0] at hlen
    exact List.length_eq_zero.1 hlen.symm
  exact List.sum_pos _ (lookupWeights_mem_pos _ _ h) hwne

lemma lookupWeights_of_known (qs : List String) (h : ∀ q ∈ qs, q ∈ knownQualities) :
    ∃ ws, lookupWeights qs = some ws := by
  induction qs with
  | nil => exact ⟨[], rfl⟩
  | cons q qs ih =>
    obtain ⟨w, hw⟩ := QUALITY_WEIGHTS_of_known q (h q (by simp))
    obtain ⟨ws, hws⟩ := ih (fun a ha => h a (by simp [ha]))
    exact ⟨w :: ws, by simp [lookupWeights, hw, hws]⟩

lemma lookupWeights_of_unknown (qs : List String) (q : String) (hq : q ∈ qs)
    (h : QUALITY_WEIGHTS q = none) : lookupWeights qs = none := by
  induction qs with
  | nil => cases hq
  | cons a qs ih =>
    rcases List.mem_cons.1 hq with rfl | hq'
    · simp [lookupWeights, h]
    · unfold lookupWeights
      rw [ih hq']
      cases QUALITY_WEIGHTS a <;> rfl

lemma count_known_labels (qs : List String) (ws : List ℚ)
    (h : lookupWeights qs = some ws) :
    qs.count ("excellent") + qs.count ("good") + qs.count ("questionable") +
      qs.count ("poor") = qs.length := by
  induction qs generalizing ws with
  | nil => simp
  | cons q qs ih =>
    unfold lookupWeights at h
    cases hq : QUALITY_WEIGHTS q <;> rw [hq] at h
    · exact absurd h (by simp)
    · cases hr : lookupWeights qs <;> rw [hr] at h
      · exact absurd h (by simp)
      · have hrec := ih _ hr
        rcases QUALITY_WEIGHTS_label _ _ hq with rfl | rfl | rfl | rfl <;>
          simp [List.count_cons] <;> omega

/-! ## Claim C7 -/

/-- Claim C7: for a non-empty series that produces an aggregation result, the
quality distribution carries all four labels, each equal to that label's
count over the total, and the four fractions sum to exactly 1 (hence are
within any positive tolerance of 1). -/
theorem summary_quality_distribution (values : List ℚ) (qualities : List String)
    (u : String) (hlen : qualities.length = values.length) (hne : values ≠ [])
    (e : SummaryEntry) (he : summarize values qualities u = some e) :
    e.quality_distribution.excellent =
        (qualities.count ("excellent") : ℚ) / (qualities.length : ℚ) ∧
      e.quality_distribution.good =
        (qualities.count ("good") : ℚ) / (qualities.length : ℚ) ∧
      e.quality_distribution.questionable =
        (qualities.count ("questionable") : ℚ) / (qualities.length : ℚ) ∧
      e.quality_distribution.poor =
        (qualities.count ("poor") : ℚ) / (qualities.length : ℚ) ∧
      e.quality_distribution.excellent + e.quality_distribution.good +
        e.quality_distribution.questionable + e.quality_distribution.poor = 1 := by
  unfold summarize at he
  rw [if_neg hne] at he
  cases hlw : lookupWeights qualities <;> rw [hlw] at he
  · exact absurd he (by simp)
  · simp only [Option.some.injEq] at he
    subst he
    refine ⟨rfl, rfl, rfl, rfl, ?_⟩
    have hc := count_known_labels _ _ hlw
    have hn0 : values.length ≠ 0 := fun h0 => hne (List.length_eq_zero.1 h0)
    have hq0 : (qualities.length : ℚ) ≠ 0 := by
      rw [hlen]
      exact Nat.cast_ne_zero.mpr hn0
    show (qualities.count ("excellent") : ℚ) / (qualities.length : ℚ) +
        (qualities.count ("good") : ℚ) / (qualities.length : ℚ) +
        (qualities.count ("questionable") : ℚ) / (qualities.length : ℚ) +
        (qualities.count ("poor") : ℚ) / (qualities.length : ℚ) = 1
    rw [div_add_div_same, div_add_div_same, div_add_div_same]
    rw [show ((qualities.count ("excellent") : ℚ) + (qualities.count ("good") : ℚ) +
        (qualities.count ("questionable") : ℚ) + (qualities.count ("poor") : ℚ)) =
        ((qualities.length : ℚ)) by exact_mod_cast congrArg (Nat.cast (R := ℚ)) hc]
    exact div_self hq0

/-- Example lists and aggregation entry for the claim C7 and C8 witnesses. -/
def exVals : List ℚ := [1, 2]

def exQuals : List String := ["good", "excellent"]

def exEntry : SummaryEntry :=
  { min := 1, max := 2, avg := 3 / 2, unit := "x", weighted_avg := 14 / 9
    quality_distribution := { excellent := 1 / 2, good := 1 / 2, questionable := 0, poor := 0 } }

lemma summarize_exVals : summarize exVals exQuals ("x") = some exEntry := by
  simp [summarize, lookupWeights, QUALITY_WEIGHTS, exVals, exQuals, exEntry,
    listMin, listMax, List.count_cons, List.zip_cons_cons, min_def, max_def]
  norm_num

/-- Witness for claim C7 at a concrete 2-point series. -/
theorem summary_quality_distribution_witness :
    exQuals.length = exVals.length ∧ exVals ≠ [] ∧
      summarize exVals exQuals ("x") = some exEntry ∧
      (exEntry.quality_distribution.excellent + exEntry.quality_distribution.good +
        exEntry.quality_distribution.questionable + exEntry.quality_distribution.poor = 1) :=
  ⟨rfl, by simp [exVals], summarize_exVals,
    (summary_quality_distribution exVals exQuals ("x") rfl (by simp [exVals])
      exEntry summarize_exVals).2.2.2.2⟩

/-! ## Claim C8 -/

lemma lookupWeights_replicate (qs : List String) (q0 : String) (w0 : ℚ)
    (hw : QUALITY_WEIGHTS q0 = some w0) (h : ∀ q ∈ qs, q = q0) :
    lookupWeights qs = some (List.replicate qs.length w0) := by
  induction qs with
  | nil => rfl
  | cons q qs ih =>
    have hq : q = q0 := h q (by simp)
    subst hq
    simp [lookupWeights, hw, ih (fun a ha => h a (by simp [ha])), List.replicate_succ]

lemma zip_replicate_weighted_sum (vs : List ℚ) (w : ℚ) :
    ((vs.zip (List.replicate vs.length w)).map (fun p => p.1 * p.2)).sum = w * vs.sum := by
  induction vs with
  | nil => simp
  | cons v vs ih =>
    simp only [List.length_cons, List.replicate_succ, List.zip_cons_cons, List.map_cons,
      List.sum_cons, ih]
    ring

/-- Claim C8: the aggregation's weighted average is
`Σ(value·weight(quality)) / Σ(weight(quality))` under the fixed weight table,
and a series whose qualities all carry one (equal) weight has
`weighted_avg = avg`. -/
theorem summary_weighted_avg (values : List ℚ) (qualities : List String) (u : String)
    (hlen : qualities.length = values.length) (hne : values ≠ [])
    (e : SummaryEntry) (he : summarize values qualities u = some e) :
    (∀ ws, lookupWeights qualities = some ws →
        e.weighted_avg = ((values.zip ws).map (fun p => p.1 * p.2)).sum / ws.sum)
    ∧ (∀ q0 w0, QUALITY_WEIGHTS q0 = some w0 → (∀ q ∈ qualities, q = q0) →
        e.weighted_avg = e.avg) := by
  unfold summarize at he
  rw [if_neg hne] at he
  cases hlw : lookupWeights qualities <;> rw [hlw] at he
  · exact absurd he (by simp)
  · rename_i ws0
    simp only [Option.some.injEq] at he
    subst he
    constructor
    · intro ws hws
      simp only [Option.some.injEq] at hws
      subst hws
      rfl
    · intro q0 w0 hw0 hconst
      have hrep := lookupWeights_replicate qualities q0 w0 hw0 hconst
      rw [hlw] at hrep
      simp only [Option.some.injEq] at hrep
      subst hrep
      show ((values.zip (List.replicate qualities.length w0)).map
          (fun p => p.1 * p.2)).sum / (List.replicate qualities.length w0).sum =
        values.sum / (values.length : ℚ)
      rw [hlen, zip_replicate_weighted_sum, List.sum_replicate, nsmul_eq_mul]
      have hw0pos := QUALITY_WEIGHTS_pos _ _ hw0
      rw [mul_comm (values.length : ℚ) w0]
      exact mul_div_mul_left _ _ (ne_of_gt hw0pos)

/-- Example constant-quality lists and entry for the claim-C8 witness. -/
def exVals8 : List ℚ := [5, 7]

def exQuals8 : List String := ["excellent", "excellent"]

def exEntry8 : SummaryEntry :=
  { min := 5, max := 7, avg := 6, unit := "x", weighted_avg := 6
    quality_distribution := { excellent := 1, good := 0, questionable := 0, poor := 0 } }

lemma summarize_exVals8 : summarize exVals8 exQuals8 ("x") = some exEntry8 := by
  simp [summarize, lookupWeights, QUALITY_WEIGHTS, exVals8, exQuals8, exEntry8,
    listMin, listMax, List.count_cons, List.zip_cons_cons, min_def, max_def]
  norm_num

/-- Witness for claim C8: an all-`excellent` series has `weighted_avg = avg`. -/
theorem summary_weighted_avg_witness :
    exQuals8.length = exVals8.length ∧ exVals8 ≠ [] ∧
      summarize exVals8 exQuals8 ("x") = some exEntry8 ∧
      exEntry8.weighted_avg = exEntry8.avg :=
  ⟨rfl, by simp [exVals8], summarize_exVals8,
    (summary_weighted_avg exVals8 exQuals8 ("x") rfl (by simp [exVals8])
        exEntry8 summarize_exVals8).2 ("excellent") 1 rfl
      (by intro q hq; simpa [exQuals8] using hq)⟩

/-! ## Claim C10 -/

/-- Claim C10: over a non-empty series whose labels are all known, the weight
sum is strictly positive (so the `weighted_avg` division never divides by
zero) and aggregation succeeds; a label outside the table makes the whole
computation fail (the `KeyError` of the weight lookup), producing no result. -/
theorem summary_weight_sum_safe (values : List ℚ) (qualities : List String) (u : String) :
    ((∀ q ∈ qualities, q ∈ knownQualities) → qualities ≠ [] → values ≠ [] →
      ∃ ws, lookupWeights qualities = some ws ∧ 0 < ws.sum ∧
        ∃ e, summarize values qualities u = some e)
    ∧ ((∃ q ∈ qualities, q ∉ knownQualities) → summarize values qualities u = none) := by
  constructor
  · intro hknown hqne hvne
    obtain ⟨ws, hws⟩ := lookupWeights_of_known qualities hknown
    refine ⟨ws, hws, lookupWeights_sum_pos _ _ hws hqne, ?_⟩
    unfold summarize
    rw [if_neg hvne, hws]
    exact ⟨_, rfl⟩
  · rintro ⟨q, hq, hunk⟩
    have hnone := lookupWeights_of_unknown qualities q hq (QUALITY_WEIGHTS_of_unknown q hunk)
    unfold summarize
    by_cases hv : values = []
    · rw [if_pos hv]
    · rw [if_neg hv, hnone]

/-- Witness for claim C10 at a concrete series of known labels. -/
theorem summary_weight_sum_safe_witness :
    (∀ q ∈ exQuals8, q ∈ knownQualities) ∧ exQuals8 ≠ [] ∧ exVals8 ≠ [] ∧
      ∃ ws, lookupWeights exQuals8 = some ws ∧ 0 < ws.sum ∧
        ∃ e, summarize exVals8 exQuals8 ("x") = some e :=
  ⟨by decide, by simp [exQuals8], by simp [exVals8],
    (summary_weight_sum_safe exVals8 exQuals8 ("x")).1 (by decide)
      (by simp [exQuals8]) (by simp [exVals8])⟩

/-! ## Claim C1 -/

/-- Claim C1 (amended): past the three gates, the variance rule decides
detection exactly as claimed; the returned confidence is the claimed value
rounded to 2 decimals (the original claim omitted the rounding, which the
counterexample below exhibits). -/
theorem seasonality_variance_rule (data : SeriesData)
    (h1 : data.dates ≠ []) (h2 : data.values ≠ [])
    (hy : 2 ≤ (data.dates.map Date.year).dedup.length)
    (hs : 3 ≤ (qualifyingSeasons data).length) :
    (avgWithinVariance data = 0 →
      (((detect_seasonality data).detected = true) ↔ 0 < betweenVariance data)
      ∧ (0 < betweenVariance data → (detect_seasonality data).confidence = 1)
      ∧ (¬0 < betweenVariance data → (detect_seasonality data).confidence = 0))
    ∧ (0 < avgWithinVariance data →
      (((detect_seasonality data).detected = true) ↔
        avgWithinVariance data * 2 < betweenVariance data)
      ∧ (avgWithinVariance data * 2 < betweenVariance data →
        (detect_seasonality data).confidence =
          roundTo 2 (min 1 (betweenVariance data / (avgWithinVariance data * 10))))) := by
  have e1 : ¬(data.dates = [] ∨ data.values = []) := by simp [h1, h2]
  have e2 : ¬((data.dates.map Date.year).dedup.length < 2) := by omega
  have e3 : ¬((qualifyingSeasons data).length < 3) := by omega
  have hD : detect_seasonality data =
      (if avgWithinVariance data = 0 then
        (if 0 < betweenVariance data then
          ({ detected := true, period := "yearly", confidence := roundTo 2 1
             pattern := some (seasonalityPattern data) } : SeasonalityResult)
        else noSeasonality)
      else if avgWithinVariance data * 2 < betweenVariance data then
        { detected := true, period := "yearly"
          confidence := roundTo 2 (min 1 (betweenVariance data / (avgWithinVariance data * 10)))
          pattern := some (seasonalityPattern data) }
      else noSeasonality) := by
    unfold detect_seasonality
    rw [if_neg e1, if_neg e2, if_neg e3]
  rw [hD]
  constructor
  · intro hw0
    rw [if_pos hw0]
    by_cases hb : 0 < betweenVariance data
    · simp [hb, roundTo_two_one]
    · simp [hb, noSeasonality]
  · intro hwpos
    rw [if_neg (ne_of_gt hwpos)]
    by_cases hb2 : avgWithinVariance data * 2 < betweenVariance data
    · simp [hb2]
    · simp [hb2, noSeasonality]

/-- Two-year, three-season series used to settle claim C1 concretely:
winter values `[-1, 1]`, spring `[1, 3]`, summer `[3, 5]`, giving
between-variance `8/3`, average within-variance `1`, and confidence ratio
`min(1, (8/3)/10) = 4/15`, which the code rounds to `0.27`. -/
def exSeason : SeriesData :=
  { dates := [⟨2024, 1, 15⟩, ⟨2025, 1, 15⟩, ⟨2024, 4, 15⟩, ⟨2025, 4, 15⟩,
      ⟨2024, 7, 15⟩, ⟨2025, 7, 15⟩]
    values := [-1, 1, 1, 3, 3, 5]
    qualities := ["good", "good", "good", "good", "good", "good"]
    unit := "celsius" }

lemma exSeason_pts : seasonPts exSeason =
    [(⟨2024, 1, 15⟩, -1), (⟨2025, 1, 15⟩, 1), (⟨2024, 4, 15⟩, 1), (⟨2025, 4, 15⟩, 3),
      (⟨2024, 7, 15⟩, 3), (⟨2025, 7, 15⟩, 5)] := by
  simp [seasonPts, exSeason]

lemma exSeason_winter : seasonVals ("winter") (seasonPts exSeason) = [-1, 1] := by
  rw [exSeason_pts]
  simp [seasonVals, seasonOf]

lemma exSeason_spring : seasonVals ("spring") (seasonPts exSeason) = [1, 3] := by
  rw [exSeason_pts]
  simp [seasonVals, seasonOf]

lemma exSeason_summer : seasonVals ("summer") (seasonPts exSeason) = [3, 5] := by
  rw [exSeason_pts]
  simp [seasonVals, seasonOf]

lemma exSeason_fall : seasonVals ("fall") (seasonPts exSeason) = [] := by
  rw [exSeason_pts]
  simp [seasonVals, seasonOf]

lemma exSeason_qualifying : qualifyingSeasons exSeason = ["winter", "spring", "summer"] := by
  unfold qualifyingSeasons seasonOrder
  simp [List.filter_cons, exSeason_winter, exSeason_spring, exSeason_summer, exSeason_fall]

lemma exSeason_between : betweenVariance exSeason = 8 / 3 := by
  unfold betweenVariance
  rw [exSeason_qualifying]
  simp [exSeason_winter, exSeason_spring, exSeason_summer]
  norm_num [mean, popVar]

lemma exSeason_within : avgWithinVariance exSeason = 1 := by
  unfold avgWithinVariance
  rw [exSeason_qualifying]
  simp [exSeason_winter, exSeason_spring, exSeason_summer]
  norm_num [mean, popVar]

lemma exSeason_years : 2 ≤ (exSeason.dates.map Date.year).dedup.length := by
  decide

/-- Counterexample to claim C1 as stated: on `exSeason` the rule detects
seasonality, but the returned confidence is the rounded `0.27`, not the
claimed exact `min(1, between/(within·10)) = 4/15`. -/
theorem seasonality_confidence_rounding_cex :
    (detect_seasonality exSeason).detected = true ∧
      0 < avgWithinVariance exSeason ∧
      avgWithinVariance exSeason * 2 < betweenVariance exSeason ∧
      (detect_seasonality exSeason).confidence ≠
        min 1 (betweenVariance exSeason / (avgWithinVariance exSeason * 10)) := by
  have hwpos : 0 < avgWithinVariance exSeason := by
    rw [exSeason_within]
    norm_num
  have hb2 : avgWithinVariance exSeason * 2 < betweenVariance exSeason := by
    rw [exSeason_within, exSeason_between]
    norm_num
  have hmain := seasonality_variance_rule exSeason (by simp [exSeason]) (by simp [exSeason])
    exSeason_years (by rw [exSeason_qualifying]; norm_num)
  obtain ⟨hdet, hconf⟩ := hmain.2 hwpos
  refine ⟨hdet.2 hb2, hwpos, hb2, ?_⟩
  rw [hconf hb2, exSeason_within, exSeason_between]
  norm_num [roundTo, round_eq, min_def]

/-- Witness for the amended claim C1 at the concrete detected series. -/
theorem seasonality_variance_rule_witness :
    exSeason.dates ≠ [] ∧ exSeason.values ≠ [] ∧
      2 ≤ (exSeason.dates.map Date.year).dedup.length ∧
      3 ≤ (qualifyingSeasons exSeason).length ∧
      (((detect_seasonality exSeason).detected = true) ↔
        avgWithinVariance exSeason * 2 < betweenVariance exSeason) := by
  have hq3 : 3 ≤ (qualifyingSeasons exSeason).length := by
    rw [exSeason_qualifying]
    norm_num
  have hwpos : 0 < avgWithinVariance exSeason := by
    rw [exSeason_within]
    norm_num
  exact ⟨by simp [exSeason], by simp [exSeason], exSeason_years, hq3,
    ((seasonality_variance_rule exSeason (by simp [exSeason]) (by simp [exSeason])
      exSeason_years hq3).2 hwpos).1⟩

/-! ## Claim C3: spec-side least-squares quantities

The specification describes the fit in deviations-from-mean form; the code
computes the `np.polyfit` normal-equations form.  The lemmas below prove the
two equal whenever the fit is determined (`olsDenom xs ≠ 0`, i.e. the day
offsets are not all identical). -/

/-- Least-squares slope as the specification words it (deviations form). -/
def fitSlopeSpec (xs ys : List ℚ) : ℚ :=
  ((xs.zip ys).map (fun p => (p.1 - mean xs) * (p.2 - mean ys))).sum
    / ((xs.map (fun x => (x - mean xs) ^ 2)).sum)

/-- Least-squares intercept as the specification words it. -/
def fitInterceptSpec (xs ys : List ℚ) : ℚ := mean ys - fitSlopeSpec xs ys * mean xs

/-- Sum of squared residuals from the specification's fitted line. -/
def ssResSpec (xs ys : List ℚ) : ℚ :=
  ((xs.zip ys).map
    (fun p => (p.2 - (fitSlopeSpec xs ys * p.1 + fitInterceptSpec xs ys)) ^ 2)).sum

/-- Total sum of squared deviations of the values from their mean. -/
def ssTotSpec (ys : List ℚ) : ℚ := (ys.map (fun y => (y - mean ys) ^ 2)).sum

/-- The specification's confidence: `R² = 1 - SS_res/SS_tot`, taken as `0`
when `SS_tot = 0`, clamped into `[0, 1]`. -/
def r2Spec (xs ys : List ℚ) : ℚ :=
  max 0 (min 1 (if ssTotSpec ys = 0 then 0 else 1 - ssResSpec xs ys / ssTotSpec ys))

lemma sum_map_shift_prod (l : List (ℚ × ℚ)) (c d : ℚ) :
    (l.map (fun p => (p.1 - c) * (p.2 - d))).sum =
      (l.map (fun p => p.1 * p.2)).sum - d * (l.map Prod.fst).sum -
        c * (l.map Prod.snd).sum + (l.length : ℚ) * (c * d) := by
  induction l with
  | nil => simp
  | cons p l ih =>
    simp only [List.map_cons, List.sum_cons, List.length_cons, ih]
    push_cast
    ring

lemma sum_map_shift_sq (l : List ℚ) (c : ℚ) :
    (l.map (fun x => (x - c) ^ 2)).sum =
      (l.map (fun x => x ^ 2)).sum - 2 * c * l.sum + (l.length : ℚ) * c ^ 2 := by
  induction l with
  | nil => simp
  | cons x l ih =>
    simp only [List.map_cons, List.sum_cons, List.length_cons, ih]
    push_cast
    ring

lemma olsDenom_ne_zero_length (xs : List ℚ) (hden : olsDenom xs ≠ 0) :
    (xs.length : ℚ) ≠ 0 := by
  intro h0
  apply hden
  have : xs = [] := List.length_eq_zero.1 (by exact_mod_cast h0)
  simp [this, olsDenom]

lemma fitSlopeSpec_eq_olsSlope (xs ys : List ℚ) (hlen : xs.length = ys.length)
    (hden : olsDenom xs ≠ 0) : fitSlopeSpec xs ys = olsSlope xs ys := by
  have hN : (xs.length : ℚ) ≠ 0 := olsDenom_ne_zero_length xs hden
  have hlenQ : ((ys.length : ℚ)) = ((xs.length : ℚ)) := by exact_mod_cast hlen.symm
  have hzlen : ((xs.zip ys).length : ℚ) = (xs.length : ℚ) := by
    rw [List.length_zip, hlen, min_self]
  have hfst : (xs.zip ys).map Prod.fst = xs := List.map_fst_zip xs ys (le_of_eq hlen)
  have hsnd : (xs.zip ys).map Prod.snd = ys := List.map_snd_zip xs ys (ge_of_eq hlen)
  have hb : (xs.map (fun x => (x - mean xs) ^ 2)).sum = olsDenom xs / (xs.length : ℚ) := by
    rw [sum_map_shift_sq]
    unfold mean olsDenom
    field_simp
    ring
  have ha : ((xs.zip ys).map (fun p => (p.1 - mean xs) * (p.2 - mean ys))).sum =
      ((xs.length : ℚ) * ((xs.zip ys).map (fun p => p.1 * p.2)).sum - xs.sum * ys.sum)
        / (xs.length : ℚ) := by
    rw [sum_map_shift_prod, hzlen, hfst, hsnd]
    unfold mean
    rw [hlenQ]
    field_simp
    ring
  unfold fitSlopeSpec olsSlope
  rw [ha, hb, div_div_div_comm, div_self hN, div_one]

lemma fitInterceptSpec_eq_olsIntercept (xs ys : List ℚ) (hlen : xs.length = ys.length)
    (hden : olsDenom xs ≠ 0) : fitInterceptSpec xs ys = olsIntercept xs ys := by
  have hN : (xs.length : ℚ) ≠ 0 := olsDenom_ne_zero_length xs hden
  have hlenQ : ((ys.length : ℚ)) = ((xs.length : ℚ)) := by exact_mod_cast hlen.symm
  unfold fitInterceptSpec olsIntercept
  rw [fitSlopeSpec_eq_olsSlope xs ys hlen hden]
  unfold mean
  rw [hlenQ]
  field_simp

lemma zip_map_sq_comm (xs : List ℚ) (f : ℚ → ℚ) :
    ∀ ys : List ℚ, xs.length = ys.length →
      ((ys.zip (xs.map f)).map (fun p => (p.1 - p.2) ^ 2)).sum =
        ((xs.zip ys).map (fun p => (p.2 - f p.1) ^ 2)).sum := by
  induction xs with
  | nil =>
    intro ys hlen
    have : ys = [] := List.length_eq_zero.1 (by simpa using hlen.symm)
    simp [this]
  | cons x xs ih =>
    intro ys hlen
    cases ys with
    | nil => simp at hlen
    | cons y ys =>
      simp only [List.map_cons, List.zip_cons_cons, List.sum_cons]
      rw [ih ys (by simpa using hlen)]

lemma ssTotSpec_nonneg (ys : List ℚ) : 0 ≤ ssTotSpec ys := by
  refine List.sum_nonneg ?_
  intro x hx
  rcases List.mem_map.1 hx with ⟨v, _, rfl⟩
  positivity

/-- Claim C3: for a series of at least 3 points with a determined fit, the
trend direction is classified from the least-squares slope with threshold
`0.01`, the rate is the slope times 30 rounded to 2 decimals, the confidence
is the clamped R-squared rounded to 2 decimals, and the unit is suffixed
with `/month`. -/
theorem trend_classification (data : SeriesData)
    (h3 : 3 ≤ data.values.length)
    (hlen : data.dates.length = data.values.length)
    (hden : olsDenom (trendDays data) ≠ 0) :
    ((calculate_trend data).direction = "stable" ↔
      |fitSlopeSpec (trendDays data) data.values| < 1 / 100)
    ∧ (¬(|fitSlopeSpec (trendDays data) data.values| < 1 / 100) →
        (((calculate_trend data).direction = "increasing") ↔
          0 < fitSlopeSpec (trendDays data) data.values)
        ∧ (((calculate_trend data).direction = "decreasing") ↔
          fitSlopeSpec (trendDays data) data.values < 0))
    ∧ (calculate_trend data).rate =
        roundTo 2 (fitSlopeSpec (trendDays data) data.values * 30)
    ∧ (calculate_trend data).confidence = roundTo 2 (r2Spec (trendDays data) data.values)
    ∧ (calculate_trend data).unit = data.unit ++ "/month" := by
  have hlenx : (trendDays data).length = data.values.length := by
    simp [trendDays, hlen]
  have hslope := fitSlopeSpec_eq_olsSlope _ _ hlenx hden
  have hintercept := fitInterceptSpec_eq_olsIntercept _ _ hlenx hden
  have hC : calculate_trend data =
      { direction :=
          if |olsSlope (trendDays data) data.values| < 1 / 100 then "stable"
          else if 0 < olsSlope (trendDays data) data.values then "increasing"
          else "decreasing"
        rate := roundTo 2 (olsSlope (trendDays data) data.values * 30)
        unit := data.unit ++ "/month"
        confidence := roundTo 2 (max 0 (min 1
          (if 0 < ssTotSpec data.values then
            1 - ((data.values.zip ((trendDays data).map
                (fun x => olsSlope (trendDays data) data.values * x +
                  olsIntercept (trendDays data) data.values))).map
              (fun p => (p.1 - p.2) ^ 2)).sum / ssTotSpec data.values
          else 0))) } := by
    unfold calculate_trend
    rw [if_neg (not_lt.2 h3)]
    rfl
  have hres : ((data.values.zip ((trendDays data).map
      (fun x => olsSlope (trendDays data) data.values * x +
        olsIntercept (trendDays data) data.values))).map
        (fun p => (p.1 - p.2) ^ 2)).sum = ssResSpec (trendDays data) data.values := by
    rw [zip_map_sq_comm (trendDays data) _ data.values hlenx]
    unfold ssResSpec
    rw [hslope, hintercept]
  have hcond : (if 0 < ssTotSpec data.values then
      1 - ssResSpec (trendDays data) data.values / ssTotSpec data.values else 0) =
      (if ssTotSpec data.values = 0 then 0
      else 1 - ssResSpec (trendDays data) data.values / ssTotSpec data.values) := by
    rcases eq_or_lt_of_le (ssTotSpec_nonneg data.values) with h0 | h0
    · simp [← h0]
    · simp [h0, ne_of_gt h0]
  have hdir : (calculate_trend data).direction =
      (if |olsSlope (trendDays data) data.values| < 1 / 100 then "stable"
      else if 0 < olsSlope (trendDays data) data.values then "increasing"
      else "decreasing") := by rw [hC]
  have hrate : (calculate_trend data).rate =
      roundTo 2 (olsSlope (trendDays data) data.values * 30) := by rw [hC]
  have hunit : (calculate_trend data).unit = data.unit ++ "/month" := by rw [hC]
  have hconf : (calculate_trend data).confidence =
      roundTo 2 (r2Spec (trendDays data) data.values) := by
    rw [hC]
    show roundTo 2 (max 0 (min 1 _)) = _
    rw [hres, hcond]
    rfl
  rw [hslope]
  refine ⟨?_, ?_, hrate, hconf, hunit⟩
  · rw [hdir]
    by_cases habs : |olsSlope (trendDays data) data.values| < 1 / 100
    · rw [if_pos habs]
      simpa using habs
    · rw [if_neg habs]
      by_cases hpos : 0 < olsSlope (trendDays data) data.values
      · rw [if_pos hpos]
        simp
        simpa using not_lt.1 habs
      · rw [if_neg hpos]
        simp
        simpa using not_lt.1 habs
  · intro hns
    have hne : olsSlope (trendDays data) data.values ≠ 0 := by
      intro h0
      exact hns (by norm_num [h0])
    rw [hdir, if_neg hns]
    by_cases hpos : 0 < olsSlope (trendDays data) data.values
    · rw [if_pos hpos]
      exact ⟨by simp [hpos], by simp [lt_asymm hpos]⟩
    · rw [if_neg hpos]
      have hneg : olsSlope (trendDays data) data.values < 0 :=
        lt_of_le_of_ne (not_lt.1 hpos) hne
      exact ⟨by simp [hpos], by simp [hneg]⟩

/-- Example perfectly linear 3-point series for the claim-C3 witness. -/
def exTrend : SeriesData :=
  { dates := [⟨2025, 1, 1⟩, ⟨2025, 1, 2⟩, ⟨2025, 1, 3⟩], values := [10, 11, 12]
    qualities := ["good", "good", "good"], unit := "celsius" }

lemma exTrend_days : trendDays exTrend = [0, 1, 2] := by
  norm_num [trendDays, exTrend, Date.dayNumber, List.headI]

lemma exTrend_denom : olsDenom (trendDays exTrend) ≠ 0 := by
  rw [exTrend_days]
  norm_num [olsDenom]

/-- Witness for claim C3 at a concrete 3-point series. -/
theorem trend_classification_witness :
    3 ≤ exTrend.values.length ∧ exTrend.dates.length = exTrend.values.length ∧
      olsDenom (trendDays exTrend) ≠ 0 ∧
      (calculate_trend exTrend).rate =
        roundTo 2 (fitSlopeSpec (trendDays exTrend) exTrend.values * 30) :=
  ⟨by decide, rfl, exTrend_denom,
    (trend_classification exTrend (by decide) rfl exTrend_denom).2.2.1⟩

/-! ## Claim C4: the rounded square root and the deviation comparison -/

lemma two_sqrt_eq (M : ℕ) : Real.sqrt ((4 * M : ℕ) : ℝ) = 2 * Real.sqrt (M : ℝ) := by
  push_cast
  rw [Real.sqrt_mul (by norm_num : (0:ℝ) ≤ 4) (M : ℝ)]
  rw [show (4:ℝ) = 2 ^ 2 by norm_num, Real.sqrt_sq (by norm_num : (0:ℝ) ≤ 2)]

lemma floor_half_sqrt_bounds (M bn s k : ℕ) (hbn : 0 < bn)
    (hs1 : s ^ 2 ≤ 4 * M) (hs2 : 4 * M < (s + 1) ^ 2) (hk : k = (s / bn + 1) / 2) :
    ((k : ℝ) ≤ Real.sqrt (M : ℝ) / (bn : ℝ) + 1 / 2) ∧
      (Real.sqrt (M : ℝ) / (bn : ℝ) + 1 / 2 < (k : ℝ) + 1) := by
  have hbnR : (0 : ℝ) < (bn : ℝ) := by exact_mod_cast hbn
  have hu1 : (s / bn) * bn ≤ s := Nat.div_mul_le_self s bn
  have hu2 : s < (s / bn + 1) * bn := (Nat.div_lt_iff_lt_mul hbn).1 (by omega)
  have hsle : (s : ℝ) ≤ 2 * Real.sqrt (M : ℝ) := by
    rw [← two_sqrt_eq M]
    rw [Real.le_sqrt (by positivity) (by positivity)]
    exact_mod_cast hs1
  have hsgt : 2 * Real.sqrt (M : ℝ) < ((2 * k + 1) * bn : ℕ) := by
    have h10 : s + 1 ≤ (2 * k + 1) * bn := by
      have : s / bn ≤ 2 * k := by omega
      calc s + 1 ≤ (s / bn + 1) * bn := hu2
        _ ≤ (2 * k + 1) * bn := Nat.mul_le_mul_right bn (by omega)
    have h8 : 4 * M < ((2 * k + 1) * bn) ^ 2 :=
      lt_of_lt_of_le hs2 (Nat.pow_le_pow_left h10 2)
    have h11 : (0 : ℝ) < (((2 * k + 1) * bn : ℕ) : ℝ) := by
      have : 0 < (2 * k + 1) * bn := Nat.mul_pos (by omega) hbn
      exact_mod_cast this
    rw [← two_sqrt_eq M]
    exact (Real.sqrt_lt' h11).2 (by exact_mod_cast h8)
  constructor
  · rcases Nat.eq_zero_or_pos k with hk0 | hk1
    · rw [hk0]
      push_cast
      positivity
    · obtain ⟨j, rfl⟩ : ∃ j, k = j + 1 := ⟨k - 1, by omega⟩
      have h7 : (2 * j + 1) * bn ≤ s := by
        have h7a : 2 * j + 1 ≤ s / bn := by omega
        calc (2 * j + 1) * bn ≤ (s / bn) * bn := Nat.mul_le_mul_right bn h7a
          _ ≤ s := hu1
      have h7R : ((2 * j + 1) * bn : ℝ) ≤ 2 * Real.sqrt (M : ℝ) := by
        calc ((2 * j + 1) * bn : ℝ) = (((2 * j + 1) * bn : ℕ) : ℝ) := by push_cast; ring
          _ ≤ (s : ℝ) := by exact_mod_cast h7
          _ ≤ 2 * Real.sqrt (M : ℝ) := hsle
      have h12 : ((j : ℝ) + 1) - 1 / 2 ≤ Real.sqrt (M : ℝ) / (bn : ℝ) := by
        rw [le_div_iff₀ hbnR]
        nlinarith [h7R]
      push_cast
      linarith
  · have h13 : Real.sqrt (M : ℝ) / (bn : ℝ) < (k : ℝ) + 1 / 2 := by
      rw [div_lt_iff₀ hbnR]
      push_cast at hsgt
      nlinarith [hsgt]
    linarith

/-- The integer `sqrtHalfUpNum` is the rounding of the true scaled square
root. -/
lemma sqrtHalfUpNum_eq (d : ℕ) (q : ℚ) (hq : 0 ≤ q) :
    (sqrtHalfUpNum d q : ℤ) = round ((10 ^ d : ℝ) * Real.sqrt ((q : ℚ) : ℝ)) := by
  have hbn : 0 < q.den := q.pos
  have hbnR : (0 : ℝ) < (q.den : ℝ) := by exact_mod_cast hbn
  have hnum : ((q.num.toNat : ℤ)) = q.num := Int.toNat_of_nonneg (Rat.num_nonneg.2 hq)
  have key : (10 ^ d : ℝ) * Real.sqrt ((q : ℚ) : ℝ) =
      Real.sqrt (((10 ^ d) ^ 2 * q.num.toNat * q.den : ℕ) : ℝ) / (q.den : ℝ) := by
    have hcast : (((q : ℚ)) : ℝ) = (q.num.toNat : ℝ) / (q.den : ℝ) := by
      rw [Rat.cast_def]
      rw [show ((q.num : ℝ)) = ((q.num.toNat : ℕ) : ℝ) from by exact_mod_cast hnum.symm]
    have h1 : Real.sqrt ((10 ^ d : ℝ) ^ 2 * ((q.num.toNat : ℝ) / (q.den : ℝ))) =
        (10 ^ d : ℝ) * Real.sqrt ((q.num.toNat : ℝ) / (q.den : ℝ)) := by
      rw [Real.sqrt_mul (by positivity) _, Real.sqrt_sq (by positivity)]
    have h2 : ((10 ^ d : ℝ) ^ 2 * ((q.num.toNat : ℝ) / (q.den : ℝ))) =
        (((10 ^ d) ^ 2 * q.num.toNat * q.den : ℕ) : ℝ) / ((q.den : ℝ)) ^ 2 := by
      push_cast
      field_simp
      ring
    have h3 : Real.sqrt ((((10 ^ d) ^ 2 * q.num.toNat * q.den : ℕ) : ℝ) / ((q.den : ℝ)) ^ 2) =
        Real.sqrt (((10 ^ d) ^ 2 * q.num.toNat * q.den : ℕ) : ℝ) / (q.den : ℝ) := by
      rw [Real.sqrt_div' _ (by positivity : (0:ℝ) ≤ ((q.den : ℝ)) ^ 2),
        Real.sqrt_sq hbnR.le]
    rw [hcast, ← h1, h2, h3]
  have hbounds := floor_half_sqrt_bounds ((10 ^ d) ^ 2 * q.num.toNat * q.den) q.den
    (Nat.sqrt (4 * ((10 ^ d) ^ 2 * q.num.toNat * q.den))) (sqrtHalfUpNum d q) hbn
    (Nat.sqrt_le' _)
    (Nat.lt_succ_sqrt' (4 * ((10 ^ d) ^ 2 * q.num.toNat * q.den)))
    rfl
  rw [round_eq, key]
  push_cast at hbounds
  refine ((Int.floor_eq_iff).2 ⟨?_, ?_⟩).symm
  · push_cast
    exact hbounds.1
  · push_cast
    exact hbounds.2

/-- The reported anomaly deviation equals the true rounded
`|value - mean| / std_dev` over the reals. -/
lemma sqrtRoundTo_eq (d : ℕ) (q : ℚ) (hq : 0 ≤ q) :
    ((sqrtRoundTo d q : ℚ) : ℝ) =
      ((round ((10 ^ d : ℝ) * Real.sqrt ((q : ℚ) : ℝ)) : ℤ) : ℝ) / (10 ^ d : ℝ) := by
  unfold sqrtRoundTo
  rw [← sqrtHalfUpNum_eq d q hq]
  push_cast
  ring

lemma dev_gt_two_iff (m v w : ℚ) (hw : 0 < w) :
    (2 < |((v : ℚ) : ℝ) - ((m : ℚ) : ℝ)| / Real.sqrt ((w : ℚ) : ℝ)) ↔
      4 * w < (v - m) ^ 2 := by
  have hwR : (0 : ℝ) < ((w : ℚ) : ℝ) := by exact_mod_cast hw
  have hsq : 0 < Real.sqrt ((w : ℚ) : ℝ) := Real.sqrt_pos.2 hwR
  have hsqsq : Real.sqrt ((w : ℚ) : ℝ) ^ 2 = ((w : ℚ) : ℝ) := Real.sq_sqrt hwR.le
  rw [lt_div_iff₀ hsq]
  constructor
  · intro h
    have h2 := mul_self_lt_mul_self (by positivity) h
    have hgoal : 4 * ((w : ℚ) : ℝ) < (((v : ℚ) : ℝ) - ((m : ℚ) : ℝ)) ^ 2 := by
      nlinarith [h2, hsqsq, sq_abs (((v : ℚ) : ℝ) - ((m : ℚ) : ℝ))]
    exact_mod_cast hgoal
  · intro h
    have hR : 4 * ((w : ℚ) : ℝ) < (((v : ℚ) : ℝ) - ((m : ℚ) : ℝ)) ^ 2 := by exact_mod_cast h
    by_contra hc
    push_neg at hc
    have h3 := mul_self_le_mul_self (abs_nonneg (((v : ℚ) : ℝ) - ((m : ℚ) : ℝ))) hc
    nlinarith [h3, hsqsq, sq_abs (((v : ℚ) : ℝ) - ((m : ℚ) : ℝ))]

/-- Claim C4: the anomaly detector returns the empty list below 3 points or
at zero standard deviation; otherwise it returns exactly the points whose
true deviation `|value - mean| / std_dev` strictly exceeds 2 (population
statistics), each carrying the value rounded to 1 decimal and the deviation
rounded to 2 decimals (third conjunct, stated against `Real.sqrt`), stably
sorted by reported deviation descending (fourth conjunct). -/
theorem anomalies_spec (data : SeriesData) :
    ((data.values.length < 3 ∨ Real.sqrt ((popVar data.values : ℚ) : ℝ) = 0) →
      detect_anomalies data = [])
    ∧ (3 ≤ data.values.length → popVar data.values ≠ 0 →
      detect_anomalies data = List.insertionSort anomalyOrder
        ((data.dates.zip (data.values.zip data.qualities)).filterMap
          (fun t =>
            if 2 < |((t.2.1 : ℚ) : ℝ) - ((mean data.values : ℚ) : ℝ)| /
                Real.sqrt ((popVar data.values : ℚ) : ℝ) then
              some { date := t.1, value := roundTo 1 t.2.1
                     deviation := sqrtRoundTo 2
                       ((t.2.1 - mean data.values) ^ 2 / popVar data.values)
                     quality := t.2.2 }
            else none)))
    ∧ (∀ v : ℚ, popVar data.values ≠ 0 →
        ((sqrtRoundTo 2 ((v - mean data.values) ^ 2 / popVar data.values) : ℚ) : ℝ) =
          ((round ((100 : ℝ) * (|((v : ℚ) : ℝ) - ((mean data.values : ℚ) : ℝ)| /
            Real.sqrt ((popVar data.values : ℚ) : ℝ))) : ℤ) : ℝ) / 100)
    ∧ List.Pairwise (fun a b => b.deviation ≤ a.deviation) (detect_anomalies data) := by
  have hnn := popVar_nonneg data.values
  refine ⟨?_, ?_, ?_, ?_⟩
  · rintro (h3 | hsz)
    · unfold detect_anomalies
      rw [if_pos h3]
    · have hv0 : popVar data.values = 0 :=
        le_antisymm (by exact_mod_cast Real.sqrt_eq_zero'.1 hsz) hnn
      unfold detect_anomalies
      by_cases h3 : data.values.length < 3
      · rw [if_pos h3]
      · rw [if_neg h3, if_pos hv0]
  · intro h3 hvar
    have hpos : 0 < popVar data.values := lt_of_le_of_ne hnn (Ne.symm hvar)
    unfold detect_anomalies
    rw [if_neg (not_lt.2 h3), if_neg hvar]
    refine congrArg (List.insertionSort anomalyOrder) ?_
    refine congrArg
      (fun f => (data.dates.zip (data.values.zip data.qualities)).filterMap f) ?_
    funext t
    exact if_congr ((dev_gt_two_iff (mean data.values) t.2.1 (popVar data.values)
      hpos).symm) rfl rfl
  · intro v hvar
    have hpos : 0 < popVar data.values := lt_of_le_of_ne hnn (Ne.symm hvar)
    have hposR : (0 : ℝ) < ((popVar data.values : ℚ) : ℝ) := by exact_mod_cast hpos
    have hq : 0 ≤ (v - mean data.values) ^ 2 / popVar data.values := by positivity
    rw [sqrtRoundTo_eq 2 _ hq]
    have hcast : (((((v - mean data.values) ^ 2 / popVar data.values) : ℚ)) : ℝ) =
        ((((v : ℚ) : ℝ) - ((mean data.values : ℚ) : ℝ)) ^ 2) /
          ((popVar data.values : ℚ) : ℝ) := by
      push_cast
      ring
    rw [hcast]
    rw [Real.sqrt_div' _ hposR.le]
    rw [Real.sqrt_sq_eq_abs]
    norm_num
  · unfold detect_anomalies
    by_cases h3 : data.values.length < 3
    · simp [h3]
    · by_cases hv : popVar data.values = 0
      · simp [h3, hv]
      · rw [if_neg h3, if_neg hv]
        exact List.sorted_insertionSort anomalyOrder _

/-- Example series with one extreme outlier for the claim-C4 witness. -/
def exAnom : SeriesData :=
  { dates := [⟨2025, 1, 1⟩, ⟨2025, 1, 2⟩, ⟨2025, 1, 3⟩, ⟨2025, 1, 4⟩, ⟨2025, 1, 5⟩,
      ⟨2025, 1, 6⟩, ⟨2025, 1, 7⟩]
    values := [20, 21, 19, 20, 21, 19, 50]
    qualities := ["good", "good", "good", "good", "good", "good", "excellent"]
    unit := "celsius" }

/-- Witness for claim C4 at a concrete outlier series: the inner hypotheses
(at least 3 points, nonzero variance) hold there, and the output is sorted
by deviation descending. -/
theorem anomalies_spec_witness :
    3 ≤ exAnom.values.length ∧ popVar exAnom.values ≠ 0 ∧
      List.Pairwise (fun a b => b.deviation ≤ a.deviation) (detect_anomalies exAnom) :=
  ⟨by decide, by norm_num [popVar, mean, exAnom], (anomalies_spec exAnom).2.2.2⟩
